import Mathlib

/-
  Verification of the Greip Go client library (package greip).

  Shallow embedding: the pure fragments of src/helpers.go and src/greip.go
  are translated into Lean functions.  The HTTP transport and the JSON
  serializer of the Go standard library are external collaborators; they are
  modelled by passing the HTTP response (status code plus decoded JSON body)
  as an explicit input, and by a `JsonValue` tree standing for what
  `encoding/json` decodes into an `interface` value.  Go runtime panics
  (out-of-range slice index, failed type assertion, assignment to a nil map)
  are modelled by an explicit `crash` outcome.
-/

namespace greip

/-- JSON values as decoded by encoding/json into a generic interface value. -/
inductive JsonValue : Type where
  | str (s : String)
  | num (n : Int)
  | jbool (b : Bool)
  | null
  | arr (elems : List JsonValue)
  | obj (fields : List (String × JsonValue))

/-- Reading `m[key]` on a Go map (modelled as an association list with unique
keys; returns the value of the first matching key, `none` when absent). -/
def goIndex {β : Type} (m : List (String × β)) (key : String) : Option β :=
  match m with
  | [] => none
  | (k, v) :: rest => if k = key then some v else goIndex rest key

/-- Writing `m[key] = v` on a Go map: replace the first binding of `key`,
or append a fresh binding when the key is absent. -/
def goMapSet {β : Type} (m : List (String × β)) (key : String) (v : β) :
    List (String × β) :=
  match m with
  | [] => [(key, v)]
  | (k, w) :: rest =>
      if k = key then (k, v) :: rest else (k, w) :: goMapSet rest key v

/-- A Go `map[string]a` value, which may be nil (`none`). -/
def GoMap : Type := Option (List (String × JsonValue))

/-- Rendering of a payload value by fmt.Sprintf with the v verb, as used when
query parameters are string-formatted (helpers.go line 37).  Every payload
value this client ever formats is a string; the container cases follow Go's
default rendering shape. -/
def goFormat : JsonValue → String
  | .str s => s
  | .num n => toString n
  | .jbool b => if b then "true" else "false"
  | .null => "<nil>"
  | .arr elems => "[" ++ String.intercalate " "
      (elems.attach.map (fun e => goFormat e.1)) ++ "]"
  | .obj fields => "map[" ++ String.intercalate " "
      (fields.attach.map (fun kv => kv.1.1 ++ ":" ++ goFormat kv.1.2)) ++ "]"
termination_by j => sizeOf j
decreasing_by
  · have h := List.sizeOf_lt_of_mem e.2
    simp only [JsonValue.arr.sizeOf_spec]
    omega
  · rcases kv with ⟨⟨k, v⟩, hmem⟩
    have h := List.sizeOf_lt_of_mem hmem
    simp only [Prod.mk.sizeOf_spec] at h
    simp only [JsonValue.obj.sizeOf_spec]
    omega

/-- The distinct error values returned by the client (each constructor stands
for one `errors.New` / `fmt.Errorf` site in the source, carrying the data
interpolated into the message there). -/
inductive GreipError : Type where
  | missingParameter (name : String)
  | invalidParameter (param : String)
  | invalidLanguage (lang : String)
  | transportError (statusCode : Int)
  | apiError (description : String)
  | missingDataField
  | bodyDecodeError
  | unmarshalError
deriving DecidableEq

/-- Outcome of a Go call: a value with nil error, a nil result with an error,
or a runtime panic (which aborts the call without returning a pair). -/
inductive GoResult (α : Type) : Type where
  | ok (v : α)
  | err (e : GreipError)
  | crash (msg : String)

/-- The Greip client handle (types.go). -/
structure Greip : Type where
  token : String
  BaseURL : String
  test : Bool

/-- greip.go line 11. -/
def baseUrl : String := "https://greipapi.com/"

/-- NewGreip (greip.go lines 14-26); the variadic test flag defaults to
false when absent. -/
def NewGreip (apiToken : String) (test : List Bool) : Greip :=
  { token := apiToken, BaseURL := baseUrl, test := test.headD false }

/-- strings.ToUpper, modelled on its ASCII fragment (all strings this client
ever compares after case-mapping are two-letter ASCII codes or the word
error): each character is upper-cased individually. -/
def strToUpper (s : String) : String :=
  String.mk (s.data.map Char.toUpper)

/-- strings.ToLower, modelled on its ASCII fragment. -/
def strToLower (s : String) : String :=
  String.mk (s.data.map Char.toLower)

/-- contains (helpers.go lines 170-177). -/
def contains (slice : List String) (item : String) : Bool :=
  match slice with
  | [] => false
  | v :: rest => if v = item then true else contains rest item

/-- validateParams (helpers.go lines 151-158): `none` is Go's nil error. -/
def validateParams (params availableParams : List String) :
    Option GreipError :=
  match params with
  | [] => none
  | param :: rest =>
      if !(contains availableParams param) then
        some (.invalidParameter param)
      else validateParams rest availableParams

/-- helpers.go line 162. -/
def allowedLangs : List String := ["EN", "AR", "DE", "FR", "ES", "JA", "ZH", "RU"]

/-- validateLang (helpers.go lines 161-167). -/
def validateLang (lang : String) : Option GreipError :=
  if !(contains allowedLangs (strToUpper lang)) then
    some (.invalidLanguage lang)
  else none

/-- An HTTP response as seen after the transport call: its status code and
its body.  The body is given as the JSON tree the response text denotes;
decoding it into a generic string-keyed map (helpers.go lines 55-58) succeeds
exactly when the tree is an object. -/
structure HttpResponse : Type where
  statusCode : Int
  body : JsonValue

/-- The absolute URL of a request (helpers.go lines 15-16). -/
def requestURL (g : Greip) (endpoint : String) : String :=
  g.BaseURL ++ endpoint

/-- The Authorization header value (helpers.go line 23). -/
def bearerHeader (g : Greip) : String :=
  "Bearer " ++ g.token

/-- Test-mode payload mutation of getRequest (helpers.go lines 26-32): when
test is enabled and at least one payload map was passed, a nil first map is
replaced by an empty one and its mode key is set to test. -/
def injectTestMode (g : Greip) (payload : List GoMap) : List GoMap :=
  if g.test ∧ 0 < payload.length then
    match payload with
    | [] => []
    | p :: rest => some (goMapSet (p.getD []) "mode" (.str "test")) :: rest
  else payload

/-- Query construction of getRequest (helpers.go lines 34-39): the first
payload map is read unconditionally (a Go runtime panic when the variadic
slice is empty); ranging over a nil map yields no entries.  Entries are kept
in association-list order (Go iterates the map in unspecified order and
url.Values.Encode then sorts by key; the claims below only depend on which
key-value pairs are present). -/
def buildQuery (payload : List GoMap) : GoResult (List (String × String)) :=
  match payload with
  | [] => .crash "index out of range"
  | p :: _ => .ok ((p.getD []).map (fun kv => (kv.1, goFormat kv.2)))

/-- The query parameters of the outgoing GET request, after test-mode
injection. -/
def getSentQuery (g : Greip) (payload : List GoMap) :
    GoResult (List (String × String)) :=
  buildQuery (injectTestMode g payload)

/-- The error-status test of helpers.go line 61 (and 129): a status key is
present, holds a string, and that string lowercased is error. -/
def envelopeIsError (fields : List (String × JsonValue)) : Bool :=
  match goIndex fields "status" with
  | some (.str s) => strToLower s = "error"
  | _ => false

/-- Envelope handling shared verbatim by getRequest (helpers.go lines 54-79)
and postRequest (lines 122-147).  `dec` stands for json.Unmarshal of the
re-marshalled data field into the caller's typed destination (`none` is an
unmarshal failure).  A non-object body makes the generic map decode fail.
Under an error status, reading the description field goes through the
unchecked type assertion of line 62/130: when the field is absent or not a
string, Go panics with an interface-conversion runtime error. -/
def handleResponseBody {α : Type} (dec : JsonValue → Option α)
    (body : JsonValue) : GoResult α :=
  match body with
  | .obj fields =>
      if envelopeIsError fields then
        match goIndex fields "description" with
        | some (.str d) => .err (.apiError d)
        | _ => .crash "interface conversion: interface is not string"
      else
        match goIndex fields "data" with
        | some data =>
            match dec data with
            | some v => .ok v
            | none => .err .unmarshalError
        | none => .err .missingDataField
  | _ => .err .bodyDecodeError

/-- getRequest (helpers.go lines 14-80).  The transport call itself is
external: `resp` is the response `client.Do` produced.  The query is built
before the request is sent, so a crash while building it means no request
goes out; a non-2xx status is rejected before the body is read. -/
def getRequest {α : Type} (g : Greip) (endpoint : String)
    (dec : JsonValue → Option α) (payload : List GoMap)
    (resp : HttpResponse) : GoResult α :=
  match getSentQuery g payload with
  | .crash m => .crash m
  | .err e => .err e
  | .ok _query =>
      if resp.statusCode < 200 ∨ 300 ≤ resp.statusCode then
        .err (.transportError resp.statusCode)
      else
        handleResponseBody dec resp.body

/-- Test-mode payload mutation of postRequest (helpers.go lines 95-98):
assigning into a nil map is a Go runtime panic. -/
def postMutatePayload (g : Greip) (payload : GoMap) : GoResult GoMap :=
  if g.test then
    match payload with
    | some m => .ok (some (goMapSet m "mode" (.str "test")))
    | none => .crash "assignment to entry in nil map"
  else .ok payload

/-- json.Marshal of a (possibly nil) map: a nil map marshals to null. -/
def marshalMap : GoMap → JsonValue
  | none => .null
  | some m => .obj m

/-- postRequest (helpers.go lines 83-148): same URL, headers, status check
and envelope handling as getRequest, with the payload serialized as the JSON
request body instead of query parameters. -/
def postRequest {α : Type} (g : Greip) (endpoint : String)
    (dec : JsonValue → Option α) (payload : GoMap)
    (resp : HttpResponse) : GoResult α :=
  match postMutatePayload g payload with
  | .crash m => .crash m
  | .err e => .err e
  | .ok _body =>
      if resp.statusCode < 200 ∨ 300 ≤ resp.statusCode then
        .err (.transportError resp.statusCode)
      else
        handleResponseBody dec resp.body

/-- greip.go line 9. -/
def availableGeoIPParams : List String :=
  ["location", "security", "timezone", "currency", "device"]

/-- greip.go line 10. -/
def availableCountryParams : List String :=
  ["language", "flag", "currency", "timezone"]

/-- The variadic optional language argument: "EN" when absent, else its
first element (greip.go lines 79-83, 233-237, 331-335). -/
def resolveLang (lang : List String) : String :=
  lang.headD "EN"

/-- The payload map of Lookup (greip.go lines 85-89). -/
def lookupPayload (ip : String) (params : List String) (langValue : String) :
    List (String × JsonValue) :=
  [("ip", .str ip),
   ("params", .str (String.intercalate "," params)),
   ("lang", .str (strToUpper langValue))]

/-- The payload map of BulkLookup (greip.go lines 239-243). -/
def bulkLookupPayload (ips params : List String) (langValue : String) :
    List (String × JsonValue) :=
  [("ips", .str (String.intercalate "," ips)),
   ("params", .str (String.intercalate "," params)),
   ("lang", .str (strToUpper langValue))]

/-- The payload map of Country (greip.go lines 337-341). -/
def countryPayload (countryCode : String) (params : List String)
    (langValue : String) : List (String × JsonValue) :=
  [("CountryCode", .str countryCode),
   ("params", .str (String.intercalate "," params)),
   ("lang", .str (strToUpper langValue))]

/-- Lookup (greip.go lines 73-125).  `params = none` is a nil slice (the
source normalizes it to empty up front, and repeats the dead nil check of
lines 97-99 after the ip check); `dec` stands for json.Unmarshal into the
ResponseLookup destination; the unused url.Values of lines 111-115 is
omitted.  `resp` is the HTTP response the transport would return. -/
def Lookup {α : Type} (g : Greip) (ip : String) (params : Option (List String))
    (lang : List String) (dec : JsonValue → Option α) (resp : HttpResponse) :
    GoResult α :=
  let params := params.getD []
  let langValue := resolveLang lang
  let payload := lookupPayload ip params langValue
  if ip = "" then .err (.missingParameter "ip")
  else
    match validateParams params availableGeoIPParams with
    | some e => .err e
    | none =>
        match validateLang langValue with
        | some e => .err e
        | none => getRequest g "IPLookup" dec [some payload] resp

/-- Threats (greip.go lines 159-181). -/
def Threats {α : Type} (g : Greip) (ip : String) (dec : JsonValue → Option α)
    (resp : HttpResponse) : GoResult α :=
  let payload : List (String × JsonValue) := [("ip", .str ip)]
  if ip = "" then .err (.missingParameter "ip")
  else getRequest g "threats" dec [some payload] resp

/-- BulkLookup (greip.go lines 227-279): the required ips slice is checked
against nil only (a non-nil empty slice passes); joining a nil slice yields
the empty string. -/
def BulkLookup {α : Type} (g : Greip) (ips : Option (List String))
    (params : Option (List String)) (lang : List String)
    (dec : JsonValue → Option α) (resp : HttpResponse) : GoResult α :=
  let params := params.getD []
  let langValue := resolveLang lang
  let payload := bulkLookupPayload (ips.getD []) params langValue
  if ips.isNone then .err (.missingParameter "ips")
  else
    match validateParams params availableGeoIPParams with
    | some e => .err e
    | none =>
        match validateLang langValue with
        | some e => .err e
        | none => getRequest g "BulkLookup" dec [some payload] resp

/-- Country (greip.go lines 325-377). -/
def Country {α : Type} (g : Greip) (countryCode : String)
    (params : Option (List String)) (lang : List String)
    (dec : JsonValue → Option α) (resp : HttpResponse) : GoResult α :=
  let params := params.getD []
  let langValue := resolveLang lang
  let payload := countryPayload countryCode params langValue
  if countryCode = "" then .err (.missingParameter "countryCode")
  else
    match validateParams params availableCountryParams with
    | some e => .err e
    | none =>
        match validateLang langValue with
        | some e => .err e
        | none => getRequest g "Country" dec [some payload] resp

/-- Profanity (greip.go lines 412-434). -/
def Profanity {α : Type} (g : Greip) (text : String)
    (dec : JsonValue → Option α) (resp : HttpResponse) : GoResult α :=
  let payload : List (String × JsonValue) := [("text", .str text)]
  if text = "" then .err (.missingParameter "text")
  else getRequest g "badWords" dec [some payload] resp

/-- AsnLookup (greip.go lines 467-489). -/
def AsnLookup {α : Type} (g : Greip) (asn : String)
    (dec : JsonValue → Option α) (resp : HttpResponse) : GoResult α :=
  let payload : List (String × JsonValue) := [("asn", .str asn)]
  if asn = "" then .err (.missingParameter "asn")
  else getRequest g "ASNLookup" dec [some payload] resp

/-- Email (greip.go lines 522-544). -/
def Email {α : Type} (g : Greip) (email : String)
    (dec : JsonValue → Option α) (resp : HttpResponse) : GoResult α :=
  let payload : List (String × JsonValue) := [("email", .str email)]
  if email = "" then .err (.missingParameter "email")
  else getRequest g "validateEmail" dec [some payload] resp

/-- Phone (greip.go lines 578-607). -/
def Phone {α : Type} (g : Greip) (phone countryCode : String)
    (dec : JsonValue → Option α) (resp : HttpResponse) : GoResult α :=
  let payload : List (String × JsonValue) :=
    [("phone", .str phone), ("countryCode", .str countryCode)]
  if phone = "" then .err (.missingParameter "phone")
  else if countryCode = "" then .err (.missingParameter "countryCode")
  else getRequest g "validatePhone" dec [some payload] resp

/-- IBAN (greip.go lines 640-662). -/
def IBAN {α : Type} (g : Greip) (iban : String)
    (dec : JsonValue → Option α) (resp : HttpResponse) : GoResult α :=
  let payload : List (String × JsonValue) := [("iban", .str iban)]
  if iban = "" then .err (.missingParameter "iban")
  else getRequest g "validateIBAN" dec [some payload] resp

/-- Payment (greip.go lines 704-723): the required data map is checked
against nil only (a non-nil empty map passes) and is wrapped under a data
key of the POST payload. -/
def Payment {α : Type} (g : Greip) (data : GoMap)
    (dec : JsonValue → Option α) (resp : HttpResponse) : GoResult α :=
  match data with
  | none => .err (.missingParameter "data")
  | some m => postRequest g "paymentFraud" dec (some [("data", .obj m)]) resp

/-- Whether an outcome is the out-of-range panic raised by reading the first
element of an empty variadic payload slice (helpers.go line 36). -/
def isOutOfRangeCrash {α : Type} : GoResult α → Bool
  | .crash m => m = "index out of range"
  | _ => false

theorem contains_eq_true_iff (slice : List String) (item : String) :
    contains slice item = true ↔ item ∈ slice := by
  induction slice with
  | nil => simp [contains]
  | cons v rest ih =>
      simp only [contains]
      by_cases h : v = item
      · simp [h]
      · simp only [if_neg h, ih, List.mem_cons]
        constructor
        · exact Or.inr
        · rintro (h' | h')
          · exact absurd h'.symm h
          · exact h'

/-- C5: validateParams succeeds exactly when every requested value is a
member (under case-sensitive string equality) of the allowed list, and on
the first requested value that is not a member it fails with the
InvalidParameter error naming that value. -/
theorem validateParams_correct (params allowed : List String) :
    (validateParams params allowed = none ↔ ∀ p ∈ params, p ∈ allowed) ∧
    (∀ p, params.find? (fun q => ! contains allowed q) = some p →
        validateParams params allowed = some (.invalidParameter p)) := by
  induction params with
  | nil =>
      refine ⟨by simp [validateParams], ?_⟩
      intro p h
      simp [List.find?] at h
  | cons a t ih =>
      constructor
      · simp only [validateParams]
        by_cases hc : contains allowed a
        · rw [hc]
          simp only [Bool.not_true, Bool.false_eq_true, if_false, ih.1,
            List.mem_cons]
          constructor
          · intro h p hp
            rcases hp with hp | hp
            · exact hp ▸ (contains_eq_true_iff allowed a).mp hc
            · exact h p hp
          · intro h p hp
            exact h p (Or.inr hp)
        · rw [Bool.not_eq_true] at hc
          rw [hc]
          simp only [Bool.not_false, if_true]
          constructor
          · intro h
            exact absurd h (by simp)
          · intro h
            have : a ∈ allowed := h a (List.mem_cons_self a t)
            rw [← contains_eq_true_iff] at this
            exact absurd this (by simp [hc])
      · intro p h
        rw [List.find?] at h
        simp only [validateParams]
        by_cases hc : contains allowed a
        · rw [hc] at h
          simp only [Bool.not_true] at h
          rw [hc]
          simp only [Bool.not_true, Bool.false_eq_true, if_false]
          exact ih.2 p h
        · rw [Bool.not_eq_true] at hc
          rw [hc] at h
          simp only [Bool.not_false] at h
          rw [hc]
          simp only [Bool.not_false, if_true]
          cases h
          rfl

/-- Witness for validateParams: the list [currency, foo, device] against the
IP-lookup allow-list fails naming foo, the first foreign element. -/
theorem validateParams_correct_witness :
    validateParams ["currency", "foo", "device"] availableGeoIPParams
      = some (.invalidParameter "foo") :=
  (validateParams_correct ["currency", "foo", "device"]
    availableGeoIPParams).2 "foo" (by decide)

/-- C6: validateLang succeeds exactly when the upper-cased code is a member
of the fixed allow-list of eight codes, and fails with the
UnsupportedLanguage error (carrying the offending code) on every other
code. -/
theorem validateLang_correct (lang : String) :
    (validateLang lang = none ↔ strToUpper lang ∈ allowedLangs) ∧
    (strToUpper lang ∉ allowedLangs →
        validateLang lang = some (.invalidLanguage lang)) := by
  unfold validateLang
  by_cases hc : contains allowedLangs (strToUpper lang)
  · simp [hc, (contains_eq_true_iff _ _).mp hc]
  · rw [Bool.not_eq_true] at hc
    have hm : strToUpper lang ∉ allowedLangs := by
      rw [← contains_eq_true_iff, hc]
      simp
    simp [hc, hm]

/-- Witness for validateLang: the lower-case code en is accepted
(membership is decided after upper-casing), exercising the success
direction of the characterization. -/
theorem validateLang_correct_witness :
    validateLang "en" = none :=
  (validateLang_correct "en").1.mpr (by decide)

/-- C1: on a 2xx response whose envelope has an error status and a string
description, the decoder fails with the APIError carrying the description
verbatim; but when the description field is missing under an error status,
the unchecked type assertion of helpers.go line 62 makes the call panic
instead of failing with a MalformedEnvelope error. -/
theorem error_envelope_description_behavior :
    getRequest (Greip.mk "token" baseUrl false) "IPLookup"
        (fun v => some v) [some []]
        (HttpResponse.mk 200
          (.obj [("status", .str "error"), ("description", .str "bad token")]))
      = .err (.apiError "bad token") ∧
    getRequest (Greip.mk "token" baseUrl false) "IPLookup"
        (fun v => some v) [some []]
        (HttpResponse.mk 200 (.obj [("status", .str "error")]))
      = .crash "interface conversion: interface is not string" :=
  ⟨rfl, rfl⟩

/-- C2 counterexample: calling BulkLookup with an empty but non-nil ips list
is not rejected with a MissingParameter error; the nil-only check lets it
through and the outcome is decided by the HTTP exchange (here a 500 response
yields the transport error, and a 200 success envelope yields a result), so
the empty required list reaches the network. -/
theorem bulkLookup_empty_list_counterexample :
    BulkLookup (Greip.mk "t" baseUrl false) (some []) none []
        (fun v => some v) (HttpResponse.mk 500 .null)
      = .err (.transportError 500) ∧
    BulkLookup (Greip.mk "t" baseUrl false) (some []) none []
        (fun v => some v)
        (HttpResponse.mk 200 (.obj [("data", .str "x")]))
      = .ok (.str "x") :=
  ⟨rfl, rfl⟩

/-- C2 amended: every required string input, when empty, fails with the
MissingParameter error naming that parameter, independently of the HTTP
response (so before any network access); the required list input of
BulkLookup and the required map input of Payment are rejected the same way
when they are nil, but an empty non-nil list or map passes the check. -/
theorem required_input_checks :
    (∀ (g : Greip) (params : Option (List String)) (lang : List String)
        (dec : JsonValue → Option JsonValue) (resp : HttpResponse),
        Lookup g "" params lang dec resp = .err (.missingParameter "ip")) ∧
    (∀ (g : Greip) (dec : JsonValue → Option JsonValue) (resp : HttpResponse),
        Threats g "" dec resp = .err (.missingParameter "ip")) ∧
    (∀ (g : Greip) (params : Option (List String)) (lang : List String)
        (dec : JsonValue → Option JsonValue) (resp : HttpResponse),
        BulkLookup g none params lang dec resp
          = .err (.missingParameter "ips")) ∧
    (∀ (g : Greip) (params : Option (List String)) (lang : List String)
        (dec : JsonValue → Option JsonValue) (resp : HttpResponse),
        Country g "" params lang dec resp
          = .err (.missingParameter "countryCode")) ∧
    (∀ (g : Greip) (dec : JsonValue → Option JsonValue) (resp : HttpResponse),
        Profanity g "" dec resp = .err (.missingParameter "text")) ∧
    (∀ (g : Greip) (dec : JsonValue → Option JsonValue) (resp : HttpResponse),
        AsnLookup g "" dec resp = .err (.missingParameter "asn")) ∧
    (∀ (g : Greip) (dec : JsonValue → Option JsonValue) (resp : HttpResponse),
        Email g "" dec resp = .err (.missingParameter "email")) ∧
    (∀ (g : Greip) (phone : String)
        (dec : JsonValue → Option JsonValue) (resp : HttpResponse),
        Phone g phone "" dec resp
          = if phone = "" then .err (.missingParameter "phone")
            else .err (.missingParameter "countryCode")) ∧
    (∀ (g : Greip) (dec : JsonValue → Option JsonValue) (resp : HttpResponse),
        IBAN g "" dec resp = .err (.missingParameter "iban")) ∧
    (∀ (g : Greip) (dec : JsonValue → Option JsonValue) (resp : HttpResponse),
        Payment g none dec resp = .err (.missingParameter "data")) := by
  refine ⟨fun _ _ _ _ _ => rfl, fun _ _ _ => rfl, fun _ _ _ _ _ => rfl,
    fun _ _ _ _ _ => rfl, fun _ _ _ => rfl, fun _ _ _ => rfl,
    fun _ _ _ => rfl, ?_, fun _ _ _ => rfl, fun _ _ _ => rfl⟩
  intro g phone dec resp
  by_cases h : phone = ""
  · simp [Phone, h]
  · simp [Phone, h]

/-- C9: for the three endpoints that take the optional language argument,
an absent argument resolves to EN, and the payload each of them hands to
the Request Executor then carries lang = EN. -/
theorem lang_defaults_to_EN :
    resolveLang [] = "EN" ∧
    (∀ (ip : String) (params : List String),
        goIndex (lookupPayload ip params (resolveLang [])) "lang"
          = some (.str "EN")) ∧
    (∀ (ips params : List String),
        goIndex (bulkLookupPayload ips params (resolveLang [])) "lang"
          = some (.str "EN")) ∧
    (∀ (countryCode : String) (params : List String),
        goIndex (countryPayload countryCode params (resolveLang [])) "lang"
          = some (.str "EN")) :=
  ⟨rfl, fun _ _ => rfl, fun _ _ => rfl, fun _ _ => rfl⟩

theorem goIndex_goMapSet {β : Type} (m : List (String × β)) (key : String)
    (v : β) : goIndex (goMapSet m key v) key = some v := by
  induction m with
  | nil => simp [goMapSet, goIndex]
  | cons kv rest ih =>
      obtain ⟨k, w⟩ := kv
      by_cases h : k = key
      · simp [goMapSet, goIndex, h]
      · simp [goMapSet, goIndex, h, ih]

theorem goIndex_map_goFormat (m : List (String × JsonValue)) (key : String) :
    goIndex (m.map (fun kv => (kv.1, goFormat kv.2))) key
      = (goIndex m key).map goFormat := by
  induction m with
  | nil => simp [goIndex]
  | cons kv rest ih =>
      obtain ⟨k, w⟩ := kv
      by_cases h : k = key
      · simp [goIndex, h]
      · simp [goIndex, h, ih]

/-- C3: when the client's test flag is set, every successfully built GET
query maps the mode key to test, and every successfully built POST body maps
the mode key to the string test — for every payload the endpoint methods
could hand over, including payloads that already bind mode, so no caller
can override the flag. -/
theorem test_mode_uniform (g : Greip) (hg : g.test = true) :
    (∀ (payload : List GoMap) (q : List (String × String)),
        getSentQuery g payload = .ok q → goIndex q "mode" = some "test") ∧
    (∀ (payload b : GoMap), postMutatePayload g payload = .ok b →
        goIndex (b.getD []) "mode" = some (.str "test")) := by
  constructor
  · intro payload q h
    cases payload with
    | nil => simp [getSentQuery, injectTestMode, buildQuery] at h
    | cons p rest =>
        have hcond : g.test = true ∧ 0 < (p :: rest).length :=
          ⟨hg, by simp⟩
        rw [getSentQuery, injectTestMode, if_pos hcond, buildQuery] at h
        cases h
        simp [goIndex_map_goFormat, goIndex_goMapSet, goFormat]
  · intro payload b h
    unfold postMutatePayload at h
    rw [if_pos hg] at h
    cases payload with
    | none => simp at h
    | some m =>
        cases h
        simp [goIndex_goMapSet]

/-- Witness for C3 at a concrete client in test mode and a concrete
payload: the built query binds mode to test. -/
theorem test_mode_uniform_witness :
    goIndex [("ip", "1.1.1.1"), ("mode", "test")] "mode" = some "test" :=
  (test_mode_uniform (Greip.mk "tk" baseUrl true) rfl).1
    [some [("ip", JsonValue.str "1.1.1.1")]]
    [("ip", "1.1.1.1"), ("mode", "test")]
    (by simp [getSentQuery, injectTestMode, buildQuery, goMapSet, goFormat])

/-- C4: whenever the HTTP status code lies outside the interval from 200
inclusive to 300 exclusive, both request executors return the TransportError
carrying that status code, for every response body and every decoder (the
body is never examined), provided the request was actually sent (its
query or body construction did not panic). -/
theorem non2xx_transportError {α : Type} (g : Greip) (endpoint : String)
    (dec : JsonValue → Option α) (resp : HttpResponse)
    (hs : resp.statusCode < 200 ∨ 300 ≤ resp.statusCode) :
    (∀ (payload : List GoMap) (q : List (String × String)),
        getSentQuery g payload = .ok q →
        getRequest g endpoint dec payload resp
          = .err (.transportError resp.statusCode)) ∧
    (∀ (payload b : GoMap), postMutatePayload g payload = .ok b →
        postRequest g endpoint dec payload resp
          = .err (.transportError resp.statusCode)) := by
  constructor
  · intro payload q h
    rw [getRequest, h, if_pos hs]
  · intro payload b h
    rw [postRequest, h, if_pos hs]

/-- Witness for C4: a 500 response with a null body (no envelope at all)
yields the transport error carrying 500. -/
theorem non2xx_transportError_witness :
    getRequest (Greip.mk "t" baseUrl false) "IPLookup" (fun v => some v)
        [some []] (HttpResponse.mk 500 .null)
      = .err (.transportError 500) :=
  (non2xx_transportError (Greip.mk "t" baseUrl false) "IPLookup"
      (fun v => some v) (HttpResponse.mk 500 .null)
      (Or.inr (by decide))).1 [some []] [] rfl

/-- C7: on an envelope object with no data key whose status is not an error
status, the shared envelope decoder of both executors fails with the
missing-data-field MalformedEnvelope error. -/
theorem missing_data_malformedEnvelope {α : Type} (dec : JsonValue → Option α)
    (fields : List (String × JsonValue))
    (hns : envelopeIsError fields = false)
    (hnd : goIndex fields "data" = none) :
    handleResponseBody dec (.obj fields) = .err .missingDataField := by
  simp [handleResponseBody, hns, hnd]

/-- Witness for C7: an envelope holding only a success status decodes to the
missing-data-field error. -/
theorem missing_data_malformedEnvelope_witness :
    handleResponseBody (fun v => some v)
        (.obj [("status", JsonValue.str "success")])
      = .err .missingDataField :=
  missing_data_malformedEnvelope (fun v => some v)
    [("status", JsonValue.str "success")] rfl rfl

theorem handleResponseBody_ok_inv {α : Type} (dec : JsonValue → Option α)
    (body : JsonValue) (v : α)
    (h : handleResponseBody dec body = .ok v) :
    ∃ fields data, body = .obj fields ∧ goIndex fields "data" = some data ∧
      dec data = some v := by
  cases body with
  | str s => simp [handleResponseBody] at h
  | num n => simp [handleResponseBody] at h
  | jbool b => simp [handleResponseBody] at h
  | null => simp [handleResponseBody] at h
  | arr elems => simp [handleResponseBody] at h
  | obj fields =>
      simp only [handleResponseBody] at h
      by_cases he : envelopeIsError fields = true
      · rw [if_pos he] at h
        rcases hd : goIndex fields "description" with _ | d
        · rw [hd] at h
          simp at h
        · rw [hd] at h
          cases d <;> simp at h
      · rw [if_neg he] at h
        rcases hd : goIndex fields "data" with _ | data
        · rw [hd] at h
          simp at h
        · rw [hd] at h
          rcases hv : dec data with _ | w
          · simp [hv] at h
          · simp [hv] at h
            subst h
            exact ⟨fields, data, rfl, hd, hv⟩

theorem getRequest_ok_inv {α : Type} (g : Greip) (endpoint : String)
    (dec : JsonValue → Option α) (payload : List GoMap) (resp : HttpResponse)
    (v : α) (h : getRequest g endpoint dec payload resp = .ok v) :
    (200 ≤ resp.statusCode ∧ resp.statusCode < 300) ∧
    handleResponseBody dec resp.body = .ok v := by
  simp only [getRequest] at h
  split at h
  · simp at h
  · simp at h
  · split at h
    · simp at h
    · rename_i hs
      push_neg at hs
      exact ⟨⟨hs.1, hs.2⟩, h⟩

theorem postRequest_ok_inv {α : Type} (g : Greip) (endpoint : String)
    (dec : JsonValue → Option α) (payload : GoMap) (resp : HttpResponse)
    (v : α) (h : postRequest g endpoint dec payload resp = .ok v) :
    (200 ≤ resp.statusCode ∧ resp.statusCode < 300) ∧
    handleResponseBody dec resp.body = .ok v := by
  simp only [postRequest] at h
  split at h
  · simp at h
  · simp at h
  · split at h
    · simp at h
    · rename_i hs
      push_neg at hs
      exact ⟨⟨hs.1, hs.2⟩, h⟩

theorem Lookup_ok_inv {α : Type} (g : Greip) (ip : String)
    (params : Option (List String)) (lang : List String)
    (dec : JsonValue → Option α) (resp : HttpResponse) (v : α)
    (h : Lookup g ip params lang dec resp = .ok v) :
    (200 ≤ resp.statusCode ∧ resp.statusCode < 300) ∧
    handleResponseBody dec resp.body = .ok v := by
  simp only [Lookup] at h
  split at h
  · simp at h
  · split at h
    · simp at h
    · split at h
      · simp at h
      · exact getRequest_ok_inv _ _ _ _ _ _ h

theorem Payment_ok_inv {α : Type} (g : Greip) (data : GoMap)
    (dec : JsonValue → Option α) (resp : HttpResponse) (v : α)
    (h : Payment g data dec resp = .ok v) :
    (200 ≤ resp.statusCode ∧ resp.statusCode < 300) ∧
    handleResponseBody dec resp.body = .ok v := by
  cases data with
  | none => simp [Payment] at h
  | some m =>
      exact postRequest_ok_inv g "paymentFraud" dec
        (some [("data", .obj m)]) resp v h

theorem Threats_ok_inv {α : Type} (g : Greip) (ip : String)
    (dec : JsonValue → Option α) (resp : HttpResponse) (v : α)
    (h : Threats g ip dec resp = .ok v) :
    (200 ≤ resp.statusCode ∧ resp.statusCode < 300) ∧
    handleResponseBody dec resp.body = .ok v := by
  simp only [Threats] at h
  split at h
  · simp at h
  · exact getRequest_ok_inv _ _ _ _ _ _ h

theorem BulkLookup_ok_inv {α : Type} (g : Greip)
    (ips params : Option (List String)) (lang : List String)
    (dec : JsonValue → Option α) (resp : HttpResponse) (v : α)
    (h : BulkLookup g ips params lang dec resp = .ok v) :
    (200 ≤ resp.statusCode ∧ resp.statusCode < 300) ∧
    handleResponseBody dec resp.body = .ok v := by
  simp only [BulkLookup] at h
  split at h
  · simp at h
  · split at h
    · simp at h
    · split at h
      · simp at h
      · exact getRequest_ok_inv _ _ _ _ _ _ h

theorem Country_ok_inv {α : Type} (g : Greip) (countryCode : String)
    (params : Option (List String)) (lang : List String)
    (dec : JsonValue → Option α) (resp : HttpResponse) (v : α)
    (h : Country g countryCode params lang dec resp = .ok v) :
    (200 ≤ resp.statusCode ∧ resp.statusCode < 300) ∧
    handleResponseBody dec resp.body = .ok v := by
  simp only [Country] at h
  split at h
  · simp at h
  · split at h
    · simp at h
    · split at h
      · simp at h
      · exact getRequest_ok_inv _ _ _ _ _ _ h

theorem Profanity_ok_inv {α : Type} (g : Greip) (text : String)
    (dec : JsonValue → Option α) (resp : HttpResponse) (v : α)
    (h : Profanity g text dec resp = .ok v) :
    (200 ≤ resp.statusCode ∧ resp.statusCode < 300) ∧
    handleResponseBody dec resp.body = .ok v := by
  simp only [Profanity] at h
  split at h
  · simp at h
  · exact getRequest_ok_inv _ _ _ _ _ _ h

theorem AsnLookup_ok_inv {α : Type} (g : Greip) (asn : String)
    (dec : JsonValue → Option α) (resp : HttpResponse) (v : α)
    (h : AsnLookup g asn dec resp = .ok v) :
    (200 ≤ resp.statusCode ∧ resp.statusCode < 300) ∧
    handleResponseBody dec resp.body = .ok v := by
  simp only [AsnLookup] at h
  split at h
  · simp at h
  · exact getRequest_ok_inv _ _ _ _ _ _ h

theorem Email_ok_inv {α : Type} (g : Greip) (email : String)
    (dec : JsonValue → Option α) (resp : HttpResponse) (v : α)
    (h : Email g email dec resp = .ok v) :
    (200 ≤ resp.statusCode ∧ resp.statusCode < 300) ∧
    handleResponseBody dec resp.body = .ok v := by
  simp only [Email] at h
  split at h
  · simp at h
  · exact getRequest_ok_inv _ _ _ _ _ _ h

theorem Phone_ok_inv {α : Type} (g : Greip) (phone countryCode : String)
    (dec : JsonValue → Option α) (resp : HttpResponse) (v : α)
    (h : Phone g phone countryCode dec resp = .ok v) :
    (200 ≤ resp.statusCode ∧ resp.statusCode < 300) ∧
    handleResponseBody dec resp.body = .ok v := by
  simp only [Phone] at h
  split at h
  · simp at h
  · split at h
    · simp at h
    · exact getRequest_ok_inv _ _ _ _ _ _ h

theorem IBAN_ok_inv {α : Type} (g : Greip) (iban : String)
    (dec : JsonValue → Option α) (resp : HttpResponse) (v : α)
    (h : IBAN g iban dec resp = .ok v) :
    (200 ≤ resp.statusCode ∧ resp.statusCode < 300) ∧
    handleResponseBody dec resp.body = .ok v := by
  simp only [IBAN] at h
  split at h
  · simp at h
  · exact getRequest_ok_inv _ _ _ _ _ _ h

theorem ok_case_trichotomy {α : Type} (r : GoResult α) (P : α → Prop)
    (hok : ∀ v, r = .ok v → P v) :
    (∃ v, r = .ok v ∧ P v) ∨ (∃ e, r = .err e) ∨ (∃ m, r = .crash m) := by
  cases r with
  | ok v => exact Or.inl ⟨v, rfl, hok v rfl⟩
  | err e => exact Or.inr (Or.inl ⟨e, rfl⟩)
  | crash m => exact Or.inr (Or.inr ⟨m, rfl⟩)

/-- C8: every call of every endpoint method either returns a value with a
nil error — and then the value is the complete decode of the data field of
a 2xx success envelope — or returns a nil result with a non-nil error, or
aborts in a Go panic (producing no result pair at all); no outcome carries
both a value and an error, so callers never observe a partially-filled
result. -/
theorem endpoint_result_total_or_error :
    (∀ (g : Greip) (ip : String) (params : Option (List String))
        (lang : List String) (dec : JsonValue → Option JsonValue)
        (resp : HttpResponse),
        (∃ v, Lookup g ip params lang dec resp = .ok v ∧
          200 ≤ resp.statusCode ∧ resp.statusCode < 300 ∧
          ∃ fields data, resp.body = .obj fields ∧
            goIndex fields "data" = some data ∧ dec data = some v) ∨
        (∃ e, Lookup g ip params lang dec resp = .err e) ∨
        (∃ m, Lookup g ip params lang dec resp = .crash m)) ∧
    (∀ (g : Greip) (ip : String) (dec : JsonValue → Option JsonValue)
        (resp : HttpResponse),
        (∃ v, Threats g ip dec resp = .ok v ∧
          200 ≤ resp.statusCode ∧ resp.statusCode < 300 ∧
          ∃ fields data, resp.body = .obj fields ∧
            goIndex fields "data" = some data ∧ dec data = some v) ∨
        (∃ e, Threats g ip dec resp = .err e) ∨
        (∃ m, Threats g ip dec resp = .crash m)) ∧
    (∀ (g : Greip) (ips params : Option (List String)) (lang : List String)
        (dec : JsonValue → Option JsonValue) (resp : HttpResponse),
        (∃ v, BulkLookup g ips params lang dec resp = .ok v ∧
          200 ≤ resp.statusCode ∧ resp.statusCode < 300 ∧
          ∃ fields data, resp.body = .obj fields ∧
            goIndex fields "data" = some data ∧ dec data = some v) ∨
        (∃ e, BulkLookup g ips params lang dec resp = .err e) ∨
        (∃ m, BulkLookup g ips params lang dec resp = .crash m)) ∧
    (∀ (g : Greip) (countryCode : String) (params : Option (List String))
        (lang : List String) (dec : JsonValue → Option JsonValue)
        (resp : HttpResponse),
        (∃ v, Country g countryCode params lang dec resp = .ok v ∧
          200 ≤ resp.statusCode ∧ resp.statusCode < 300 ∧
          ∃ fields data, resp.body = .obj fields ∧
            goIndex fields "data" = some data ∧ dec data = some v) ∨
        (∃ e, Country g countryCode params lang dec resp = .err e) ∨
        (∃ m, Country g countryCode params lang dec resp = .crash m)) ∧
    (∀ (g : Greip) (text : String) (dec : JsonValue → Option JsonValue)
        (resp : HttpResponse),
        (∃ v, Profanity g text dec resp = .ok v ∧
          200 ≤ resp.statusCode ∧ resp.statusCode < 300 ∧
          ∃ fields data, resp.body = .obj fields ∧
            goIndex fields "data" = some data ∧ dec data = some v) ∨
        (∃ e, Profanity g text dec resp = .err e) ∨
        (∃ m, Profanity g text dec resp = .crash m)) ∧
    (∀ (g : Greip) (asn : String) (dec : JsonValue → Option JsonValue)
        (resp : HttpResponse),
        (∃ v, AsnLookup g asn dec resp = .ok v ∧
          200 ≤ resp.statusCode ∧ resp.statusCode < 300 ∧
          ∃ fields data, resp.body = .obj fields ∧
            goIndex fields "data" = some data ∧ dec data = some v) ∨
        (∃ e, AsnLookup g asn dec resp = .err e) ∨
        (∃ m, AsnLookup g asn dec resp = .crash m)) ∧
    (∀ (g : Greip) (email : String) (dec : JsonValue → Option JsonValue)
        (resp : HttpResponse),
        (∃ v, Email g email dec resp = .ok v ∧
          200 ≤ resp.statusCode ∧ resp.statusCode < 300 ∧
          ∃ fields data, resp.body = .obj fields ∧
            goIndex fields "data" = some data ∧ dec data = some v) ∨
        (∃ e, Email g email dec resp = .err e) ∨
        (∃ m, Email g email dec resp = .crash m)) ∧
    (∀ (g : Greip) (phone countryCode : String)
        (dec : JsonValue → Option JsonValue) (resp : HttpResponse),
        (∃ v, Phone g phone countryCode dec resp = .ok v ∧
          200 ≤ resp.statusCode ∧ resp.statusCode < 300 ∧
          ∃ fields data, resp.body = .obj fields ∧
            goIndex fields "data" = some data ∧ dec data = some v) ∨
        (∃ e, Phone g phone countryCode dec resp = .err e) ∨
        (∃ m, Phone g phone countryCode dec resp = .crash m)) ∧
    (∀ (g : Greip) (iban : String) (dec : JsonValue → Option JsonValue)
        (resp : HttpResponse),
        (∃ v, IBAN g iban dec resp = .ok v ∧
          200 ≤ resp.statusCode ∧ resp.statusCode < 300 ∧
          ∃ fields data, resp.body = .obj fields ∧
            goIndex fields "data" = some data ∧ dec data = some v) ∨
        (∃ e, IBAN g iban dec resp = .err e) ∨
        (∃ m, IBAN g iban dec resp = .crash m)) ∧
    (∀ (g : Greip) (data : GoMap) (dec : JsonValue → Option JsonValue)
        (resp : HttpResponse),
        (∃ v, Payment g data dec resp = .ok v ∧
          200 ≤ resp.statusCode ∧ resp.statusCode < 300 ∧
          ∃ fields d, resp.body = .obj fields ∧
            goIndex fields "data" = some d ∧ dec d = some v) ∨
        (∃ e, Payment g data dec resp = .err e) ∨
        (∃ m, Payment g data dec resp = .crash m)) := by
  refine ⟨?_, ?_, ?_, ?_, ?_, ?_, ?_, ?_, ?_, ?_⟩
  · intro g ip params lang dec resp
    refine ok_case_trichotomy _ _ (fun v hr => ?_)
    obtain ⟨⟨h1, h2⟩, h3⟩ := Lookup_ok_inv _ _ _ _ _ _ _ hr
    obtain ⟨fields, data, hb, hd, hv⟩ := handleResponseBody_ok_inv _ _ _ h3
    exact ⟨h1, h2, fields, data, hb, hd, hv⟩
  · intro g ip dec resp
    refine ok_case_trichotomy _ _ (fun v hr => ?_)
    obtain ⟨⟨h1, h2⟩, h3⟩ := Threats_ok_inv _ _ _ _ _ hr
    obtain ⟨fields, data, hb, hd, hv⟩ := handleResponseBody_ok_inv _ _ _ h3
    exact ⟨h1, h2, fields, data, hb, hd, hv⟩
  · intro g ips params lang dec resp
    refine ok_case_trichotomy _ _ (fun v hr => ?_)
    obtain ⟨⟨h1, h2⟩, h3⟩ := BulkLookup_ok_inv _ _ _ _ _ _ _ hr
    obtain ⟨fields, data, hb, hd, hv⟩ := handleResponseBody_ok_inv _ _ _ h3
    exact ⟨h1, h2, fields, data, hb, hd, hv⟩
  · intro g countryCode params lang dec resp
    refine ok_case_trichotomy _ _ (fun v hr => ?_)
    obtain ⟨⟨h1, h2⟩, h3⟩ := Country_ok_inv _ _ _ _ _ _ _ hr
    obtain ⟨fields, data, hb, hd, hv⟩ := handleResponseBody_ok_inv _ _ _ h3
    exact ⟨h1, h2, fields, data, hb, hd, hv⟩
  · intro g text dec resp
    refine ok_case_trichotomy _ _ (fun v hr => ?_)
    obtain ⟨⟨h1, h2⟩, h3⟩ := Profanity_ok_inv _ _ _ _ _ hr
    obtain ⟨fields, data, hb, hd, hv⟩ := handleResponseBody_ok_inv _ _ _ h3
    exact ⟨h1, h2, fields, data, hb, hd, hv⟩
  · intro g asn dec resp
    refine ok_case_trichotomy _ _ (fun v hr => ?_)
    obtain ⟨⟨h1, h2⟩, h3⟩ := AsnLookup_ok_inv _ _ _ _ _ hr
    obtain ⟨fields, data, hb, hd, hv⟩ := handleResponseBody_ok_inv _ _ _ h3
    exact ⟨h1, h2, fields, data, hb, hd, hv⟩
  · intro g email dec resp
    refine ok_case_trichotomy _ _ (fun v hr => ?_)
    obtain ⟨⟨h1, h2⟩, h3⟩ := Email_ok_inv _ _ _ _ _ hr
    obtain ⟨fields, data, hb, hd, hv⟩ := handleResponseBody_ok_inv _ _ _ h3
    exact ⟨h1, h2, fields, data, hb, hd, hv⟩
  · intro g phone countryCode dec resp
    refine ok_case_trichotomy _ _ (fun v hr => ?_)
    obtain ⟨⟨h1, h2⟩, h3⟩ := Phone_ok_inv _ _ _ _ _ _ hr
    obtain ⟨fields, data, hb, hd, hv⟩ := handleResponseBody_ok_inv _ _ _ h3
    exact ⟨h1, h2, fields, data, hb, hd, hv⟩
  · intro g iban dec resp
    refine ok_case_trichotomy _ _ (fun v hr => ?_)
    obtain ⟨⟨h1, h2⟩, h3⟩ := IBAN_ok_inv _ _ _ _ _ hr
    obtain ⟨fields, data, hb, hd, hv⟩ := handleResponseBody_ok_inv _ _ _ h3
    exact ⟨h1, h2, fields, data, hb, hd, hv⟩
  · intro g data dec resp
    refine ok_case_trichotomy _ _ (fun v hr => ?_)
    obtain ⟨⟨h1, h2⟩, h3⟩ := Payment_ok_inv _ _ _ _ _ hr
    obtain ⟨fields, d, hb, hd, hv⟩ := handleResponseBody_ok_inv _ _ _ h3
    exact ⟨h1, h2, fields, d, hb, hd, hv⟩

theorem handleResponseBody_not_index_crash {α : Type}
    (dec : JsonValue → Option α) (body : JsonValue) :
    isOutOfRangeCrash (handleResponseBody dec body) = false := by
  cases body with
  | str s => rfl
  | num n => rfl
  | jbool b => rfl
  | null => rfl
  | arr elems => rfl
  | obj fields =>
      simp only [handleResponseBody]
      by_cases he : envelopeIsError fields = true
      · rw [if_pos he]
        rcases goIndex fields "description" with _ | d
        · rfl
        · cases d <;> rfl
      · rw [if_neg he]
        rcases goIndex fields "data" with _ | data
        · rfl
        · rcases hv : dec data with _ | w <;>
            simp [hv, isOutOfRangeCrash]

theorem getRequest_cons_not_index_crash {α : Type} (g : Greip)
    (endpoint : String) (dec : JsonValue → Option α) (p : GoMap)
    (rest : List GoMap) (resp : HttpResponse) :
    isOutOfRangeCrash (getRequest g endpoint dec (p :: rest) resp) = false := by
  obtain ⟨q, hq⟩ : ∃ q, getSentQuery g (p :: rest) = .ok q := by
    unfold getSentQuery injectTestMode
    by_cases hc : g.test = true ∧ 0 < (p :: rest).length
    · rw [if_pos hc]
      exact ⟨_, rfl⟩
    · rw [if_neg hc]
      exact ⟨_, rfl⟩
  simp only [getRequest, hq]
  split
  · rfl
  · exact handleResponseBody_not_index_crash dec resp.body

/-- C10: getRequest reads the first variadic payload map unconditionally,
so calling it with zero payload maps panics with the out-of-range index
error before any request is sent; and no public GET endpoint method can hit
that panic, because each passes exactly one payload map. -/
theorem getRequest_first_payload_access :
    (∀ (g : Greip) (endpoint : String) (dec : JsonValue → Option JsonValue)
        (resp : HttpResponse),
        getRequest g endpoint dec [] resp = .crash "index out of range") ∧
    (∀ (g : Greip) (ip : String) (params : Option (List String))
        (lang : List String) (dec : JsonValue → Option JsonValue)
        (resp : HttpResponse),
        isOutOfRangeCrash (Lookup g ip params lang dec resp) = false) ∧
    (∀ (g : Greip) (ip : String) (dec : JsonValue → Option JsonValue)
        (resp : HttpResponse),
        isOutOfRangeCrash (Threats g ip dec resp) = false) ∧
    (∀ (g : Greip) (ips params : Option (List String)) (lang : List String)
        (dec : JsonValue → Option JsonValue) (resp : HttpResponse),
        isOutOfRangeCrash (BulkLookup g ips params lang dec resp) = false) ∧
    (∀ (g : Greip) (countryCode : String) (params : Option (List String))
        (lang : List String) (dec : JsonValue → Option JsonValue)
        (resp : HttpResponse),
        isOutOfRangeCrash (Country g countryCode params lang dec resp)
          = false) ∧
    (∀ (g : Greip) (text : String) (dec : JsonValue → Option JsonValue)
        (resp : HttpResponse),
        isOutOfRangeCrash (Profanity g text dec resp) = false) ∧
    (∀ (g : Greip) (asn : String) (dec : JsonValue → Option JsonValue)
        (resp : HttpResponse),
        isOutOfRangeCrash (AsnLookup g asn dec resp) = false) ∧
    (∀ (g : Greip) (email : String) (dec : JsonValue → Option JsonValue)
        (resp : HttpResponse),
        isOutOfRangeCrash (Email g email dec resp) = false) ∧
    (∀ (g : Greip) (phone countryCode : String)
        (dec : JsonValue → Option JsonValue) (resp : HttpResponse),
        isOutOfRangeCrash (Phone g phone countryCode dec resp) = false) ∧
    (∀ (g : Greip) (iban : String) (dec : JsonValue → Option JsonValue)
        (resp : HttpResponse),
        isOutOfRangeCrash (IBAN g iban dec resp) = false) := by
  refine ⟨?_, ?_, ?_, ?_, ?_, ?_, ?_, ?_, ?_, ?_⟩
  · intro g endpoint dec resp
    have hi : injectTestMode g [] = [] := by
      unfold injectTestMode
      rw [if_neg]
      rintro ⟨-, hlen⟩
      simp at hlen
    unfold getRequest getSentQuery
    rw [hi]
    rfl
  · intro g ip params lang dec resp
    simp only [Lookup]
    split
    · rfl
    · split
      · rfl
      · split
        · rfl
        · exact getRequest_cons_not_index_crash _ _ _ _ _ _
  · intro g ip dec resp
    unfold Threats
    split
    · rfl
    · exact getRequest_cons_not_index_crash _ _ _ _ _ _
  · intro g ips params lang dec resp
    simp only [BulkLookup]
    split
    · rfl
    · split
      · rfl
      · split
        · rfl
        · exact getRequest_cons_not_index_crash _ _ _ _ _ _
  · intro g countryCode params lang dec resp
    simp only [Country]
    split
    · rfl
    · split
      · rfl
      · split
        · rfl
        · exact getRequest_cons_not_index_crash _ _ _ _ _ _
  · intro g text dec resp
    unfold Profanity
    split
    · rfl
    · exact getRequest_cons_not_index_crash _ _ _ _ _ _
  · intro g asn dec resp
    unfold AsnLookup
    split
    · rfl
    · exact getRequest_cons_not_index_crash _ _ _ _ _ _
  · intro g email dec resp
    unfold Email
    split
    · rfl
    · exact getRequest_cons_not_index_crash _ _ _ _ _ _
  · intro g phone countryCode dec resp
    unfold Phone
    split
    · rfl
    · split
      · rfl
      · exact getRequest_cons_not_index_crash _ _ _ _ _ _
  · intro g iban dec resp
    unfold IBAN
    split
    · rfl
    · exact getRequest_cons_not_index_crash _ _ _ _ _ _

end greip
